import Mathlib

/-!
Verification of the NBA prop-prediction app (src/app.py) against its
natural-language specification.

The source is a single Streamlit script.  Its core data-transformation logic
is shallowly embedded here:

* real-valued statistics are modelled as rationals (`ℚ`);
* pandas DataFrames become Lean structures / lists of records;
* fallible code (Python `try/except`, `return None`, empty-DataFrame
  sentinels) becomes `Option` / `Except`;
* a fitted scikit-learn regression model is opaque numeric code, so a trained
  model is represented by the data it was fitted on (for the trainer) or by
  an arbitrary function `FeatureRow → ℚ` (for the prediction service); the
  claims under verification only concern which models exist and how their
  outputs are post-processed, never the regression values themselves.
-/

/-- Badge classification produced by the prop analyzer
(`render_card` in app.py): `BET OVER` when `diff > 0`, `BET UNDER` when
`diff < 0`, and no badge at all otherwise — the no-recommendation
fall-through branch is the PUSH state of the spec. -/
inductive EdgeClass
  | over
  | under
  | push
deriving DecidableEq, Repr

/-- Embedding of the edge logic of `render_card` (app.py lines 297-300):
`diff = pred_val - line`; `diff > 0` renders the OVER badge, `diff < 0` the
UNDER badge, and the remaining case renders neither. -/
def edgeCalculator (predVal line : ℚ) : ℚ × EdgeClass :=
  let diff := predVal - line
  (diff, if 0 < diff then .over else if diff < 0 then .under else .push)

/-- One row of a player game log after normalization: the parsed game date
(encoded as a natural number, ascending with time) and the six tracked
statistic columns MIN, PTS, REB, AST, STL, BLK. -/
structure GameRecord where
  gameDate : ℕ
  minutes : ℚ
  pts : ℚ
  reb : ℚ
  ast : ℚ
  stl : ℚ
  blk : ℚ
deriving DecidableEq, Repr

/-- The feature row built by `predict` (app.py lines 144-148): the `_L5`
trailing-window means of the six tracked statistics. -/
structure FeatureRow where
  ptsL5 : ℚ
  rebL5 : ℚ
  astL5 : ℚ
  minL5 : ℚ
  stlL5 : ℚ
  blkL5 : ℚ
deriving DecidableEq, Repr

/-- Arithmetic mean of a list of rationals (`pandas.Series.mean`). -/
def meanQ (xs : List ℚ) : ℚ :=
  xs.sum / xs.length

/-- Embedding of `DataFrame.tail(5)`: the last five rows of the log. -/
def tail5 (log : List GameRecord) : List GameRecord :=
  log.drop (log.length - 5)

/-- Embedding of the feature construction in `predict` (app.py lines
143-148): each `_L5` feature is the mean of the matching column over
`recent_stats.tail(5)`. -/
def featureRow (recent : List GameRecord) : FeatureRow :=
  let last5 := tail5 recent
  { ptsL5 := meanQ (last5.map (·.pts))
    rebL5 := meanQ (last5.map (·.reb))
    astL5 := meanQ (last5.map (·.ast))
    minL5 := meanQ (last5.map (·.minutes))
    stlL5 := meanQ (last5.map (·.stl))
    blkL5 := meanQ (last5.map (·.blk)) }

/-- Round-half-to-even to the nearest integer, the semantics of Python's
builtin `round` on exact values. -/
def roundHalfEven (q : ℚ) : ℤ :=
  let f : ℤ := ⌊q⌋
  let frac : ℚ := q - f
  if frac < 1/2 then f
  else if 1/2 < frac then f + 1
  else if f % 2 = 0 then f else f + 1

/-- Python's `round(x, 1)`: round to one decimal place, halves to even. -/
def pyRound1 (q : ℚ) : ℚ :=
  (roundHalfEven (q * 10) : ℚ) / 10

/-- Embedding of `predict(models, recent_stats)` (app.py lines 141-152).
A trained model set is an association list from target-statistic name to an
opaque regression function.  Fewer than five rows of history yields `none`
(the `return None` insufficient-history failure); otherwise one rounded
prediction per model in the set. -/
def predict (models : List (String × (FeatureRow → ℚ)))
    (recentStats : List GameRecord) : Option (List (String × ℚ)) :=
  if recentStats.length < 5 then none
  else
    some (models.map (fun sm => (sm.1, pyRound1 (sm.2 (featureRow recentStats)))))

/-- C1: for all rationals `p` and `l` the edge calculator returns
`(p - l, c)` with `c = OVER` iff `p - l > 0`, `c = UNDER` iff `p - l < 0`
and `c = PUSH` iff `p - l = 0` exactly (no epsilon tolerance); moreover
`edgeCalculator 24.3 22.5 = (1.8, OVER)`, `edgeCalculator 6 6 = (0, PUSH)`
and `edgeCalculator 3.1 4.5 = (-1.4, UNDER)`. -/
theorem edgeCalculator_sign_classification :
    (∀ p l : ℚ,
      (edgeCalculator p l).1 = p - l ∧
      ((edgeCalculator p l).2 = .over ↔ 0 < p - l) ∧
      ((edgeCalculator p l).2 = .under ↔ p - l < 0) ∧
      ((edgeCalculator p l).2 = .push ↔ p - l = 0)) ∧
    edgeCalculator 24.3 22.5 = (1.8, .over) ∧
    edgeCalculator 6 6 = (0, .push) ∧
    edgeCalculator 3.1 4.5 = (-1.4, .under) := by
  refine ⟨fun p l => ?_, ?_, ?_, ?_⟩
  · unfold edgeCalculator
    rcases lt_trichotomy (p - l) 0 with h | h | h
    · simp [h, not_lt.mpr h.le, h.ne]
    · simp [h]
    · simp [h, not_lt.mpr h.le, h.ne.symm]
  · unfold edgeCalculator
    norm_num
  · unfold edgeCalculator
    norm_num
  · unfold edgeCalculator
    norm_num

/-- The trailing window of a log with at least five records has exactly five
records. -/
theorem tail5_length_of_le {log : List GameRecord} (h : 5 ≤ log.length) :
    (tail5 log).length = 5 := by
  simp only [tail5, List.length_drop]
  omega

/-- Appending any prefix in front of a five-record window leaves the
trailing window unchanged. -/
theorem tail5_append (pre w : List GameRecord) (hw : w.length = 5) :
    tail5 (pre ++ w) = w := by
  simp only [tail5, List.length_append, hw, Nat.add_sub_cancel]
  exact List.drop_left pre w

/-- The feature row only depends on the trailing window. -/
theorem featureRow_congr {a b : List GameRecord} (h : tail5 a = tail5 b) :
    featureRow a = featureRow b := by
  simp [featureRow, h]

/-- C2: for every log with at least five records, each `_L5` feature equals
the arithmetic mean (sum divided by 5) of that statistic over the last five
records in log order, the trailing window has exactly five records, and
replacing the records before the last five by anything (in particular any
permutation of them) leaves the feature row unchanged. -/
theorem rollingFeatures_are_trailing_means (log : List GameRecord)
    (h : 5 ≤ log.length) :
    ((featureRow log).ptsL5 = ((tail5 log).map (·.pts)).sum / 5 ∧
     (featureRow log).rebL5 = ((tail5 log).map (·.reb)).sum / 5 ∧
     (featureRow log).astL5 = ((tail5 log).map (·.ast)).sum / 5 ∧
     (featureRow log).minL5 = ((tail5 log).map (·.minutes)).sum / 5 ∧
     (featureRow log).stlL5 = ((tail5 log).map (·.stl)).sum / 5 ∧
     (featureRow log).blkL5 = ((tail5 log).map (·.blk)).sum / 5) ∧
    (tail5 log).length = 5 ∧
    ∀ pre : List GameRecord, featureRow (pre ++ tail5 log) = featureRow log := by
  have h5 : (tail5 log).length = 5 := tail5_length_of_le h
  refine ⟨?_, h5, ?_⟩
  · refine ⟨?_, ?_, ?_, ?_, ?_, ?_⟩ <;>
      simp [featureRow, meanQ, List.length_map, h5]
  · intro pre
    exact featureRow_congr (tail5_append pre (tail5 log) h5)

/-- A six-game sample log; points are 10, 12, 14, 16, 18, 20 ascending by
date as in the end-to-end example of the spec. -/
def sampleLog : List GameRecord :=
  [⟨1, 30, 10, 5, 3, 1, 0⟩, ⟨2, 31, 12, 6, 4, 1, 1⟩, ⟨3, 32, 14, 7, 5, 2, 0⟩,
   ⟨4, 33, 16, 8, 6, 0, 1⟩, ⟨5, 34, 18, 9, 7, 1, 0⟩, ⟨6, 35, 20, 10, 8, 2, 1⟩]

/-- Witness for C2 at the six-game sample log. -/
theorem rollingFeatures_are_trailing_means_witness :
    5 ≤ sampleLog.length ∧
    (featureRow sampleLog).ptsL5 = ((tail5 sampleLog).map (·.pts)).sum / 5 :=
  ⟨by decide, (rollingFeatures_are_trailing_means sampleLog (by decide)).1.1⟩

/-- Modelled from the spec: training-example generation is absent from
src/ (the historical training CSV is prepared out of band).  Spec §3
(TrainingExample) and §4.2: one training example per historical game with at
least window-size (5) prior records — the features are the rolling means
over the five records before game `i`, the label is game `i` itself. -/
def trainingExamples (log : List GameRecord) :
    List (ℕ × FeatureRow × GameRecord) :=
  (List.range log.length).filterMap fun i =>
    match log[i]? with
    | some g => if 5 ≤ i then some (i, featureRow (log.take i), g) else none
    | none => none

/-- Characterization of membership in the generated training-example set. -/
theorem mem_trainingExamples {log : List GameRecord} {i : ℕ} {f : FeatureRow}
    {g : GameRecord} :
    (i, f, g) ∈ trainingExamples log ↔
      ∃ h : i < log.length,
        5 ≤ i ∧ f = featureRow (log.take i) ∧ g = log.get ⟨i, h⟩ := by
  simp only [trainingExamples, List.mem_filterMap, List.mem_range]
  constructor
  · rintro ⟨j, hj, hfe⟩
    rw [List.getElem?_eq_getElem hj] at hfe
    by_cases h5 : 5 ≤ j
    · simp only [h5, if_true, Option.some.injEq, Prod.mk.injEq] at hfe
      obtain ⟨hji, hf, hg⟩ := hfe
      subst hji
      exact ⟨hj, h5, hf.symm, hg.symm⟩
    · simp [h5] at hfe
  · rintro ⟨hi, h5, hf, hg⟩
    refine ⟨i, hi, ?_⟩
    subst hf
    subst hg
    simp [List.getElem?_eq_getElem hi, h5, List.get_eq_getElem]

/-- C5: prediction fails (returns the `None` insufficient-history outcome)
on every log of fewer than five records — in particular on exactly four —
succeeds on every log of at least five — in particular on exactly five —
and the window-size-5 precondition enforced by live prediction is the same
one enforced by training-example generation: an example labelled by game `i`
exists iff prediction on the history before game `i` would succeed, both
exactly when `5 ≤ i`. -/
theorem predict_window_precondition :
    (∀ (models : List (String × (FeatureRow → ℚ))) (log : List GameRecord),
      log.length < 5 → predict models log = none) ∧
    (∀ (models : List (String × (FeatureRow → ℚ))) (log : List GameRecord),
      log.length = 4 → predict models log = none) ∧
    (∀ (models : List (String × (FeatureRow → ℚ))) (log : List GameRecord),
      log.length = 5 → (predict models log).isSome) ∧
    (∀ (models : List (String × (FeatureRow → ℚ))) (log : List GameRecord),
      5 ≤ log.length → (predict models log).isSome) ∧
    (∀ (log : List GameRecord) (i : ℕ), i < log.length →
      (((∃ f g, (i, f, g) ∈ trainingExamples log) ↔ 5 ≤ i) ∧
       ∀ models : List (String × (FeatureRow → ℚ)),
         (predict models (log.take i)).isSome ↔ 5 ≤ i)) := by
  have hnone : ∀ (models : List (String × (FeatureRow → ℚ)))
      (log : List GameRecord), log.length < 5 → predict models log = none := by
    intro models log hlen
    simp [predict, hlen]
  have hsome : ∀ (models : List (String × (FeatureRow → ℚ)))
      (log : List GameRecord), 5 ≤ log.length → (predict models log).isSome := by
    intro models log hlen
    simp [predict, Nat.not_lt.mpr hlen]
  refine ⟨hnone, ?_, ?_, hsome, ?_⟩
  · intro models log hlen
    exact hnone models log (by omega)
  · intro models log hlen
    exact hsome models log (by omega)
  · intro log i hi
    have htake : (log.take i).length = i := by
      simp only [List.length_take]
      omega
    constructor
    · constructor
      · rintro ⟨f, g, hmem⟩
        obtain ⟨_, h5, -, -⟩ := mem_trainingExamples.mp hmem
        exact h5
      · intro h5
        exact ⟨featureRow (log.take i), log.get ⟨i, hi⟩,
          mem_trainingExamples.mpr ⟨hi, h5, rfl, rfl⟩⟩
    · intro models
      constructor
      · intro hs
        by_contra h5
        rw [hnone models (log.take i) (by omega)] at hs
        exact Bool.noConfusion hs
      · intro h5
        exact hsome models (log.take i) (by omega)

/-- A four-game sample log. -/
def sampleLog4 : List GameRecord :=
  [⟨1, 30, 10, 5, 3, 1, 0⟩, ⟨2, 31, 12, 6, 4, 1, 1⟩, ⟨3, 32, 14, 7, 5, 2, 0⟩,
   ⟨4, 33, 16, 8, 6, 0, 1⟩]

/-- Witness for C5: on the concrete four-game log prediction fails. -/
theorem predict_window_precondition_witness :
    sampleLog4.length = 4 ∧ predict [] sampleLog4 = none :=
  ⟨by decide, predict_window_precondition.2.1 [] sampleLog4 (by decide)⟩

/-- A training dataset as loaded from `nba_training_data.csv`: its column
names and its rows, a row being a valuation of column names. -/
structure Dataset where
  cols : List String
  rows : List (String → ℚ)

/-- The required feature columns (`needed` in `train_model_from_csv`). -/
def neededCols : List String :=
  ["PTS_L5", "REB_L5", "AST_L5", "MIN_L5", "STL_L5", "BLK_L5"]

/-- The candidate target columns (`targets` in `train_model_from_csv`). -/
def targetCols : List String :=
  ["PTS", "REB", "AST", "STL", "BLK"]

/-- A fitted regression model, represented by the data it was fitted on
(`model.fit(X, y)` with `X = df[needed]`, `y = df[target]`); the fitted
estimator itself is opaque floating-point code and no claim depends on its
values. -/
structure FittedModel where
  xdata : List (List ℚ)
  ydata : List ℚ

/-- The fit step for one target column. -/
def fitModel (df : Dataset) (target : String) : FittedModel :=
  { xdata := df.rows.map fun r => neededCols.map r
    ydata := df.rows.map fun r => r target }

/-- Embedding of `train_model_from_csv` (app.py lines 75-91).  The input is
`none` when the CSV file is missing (`FileNotFoundError`).  If any required
feature column is absent the whole function returns `none` (the
MissingFeatureColumnsError outcome — no models at all); otherwise one model
is fitted per target column present in the dataset. -/
def trainModelFromCsv (csv : Option Dataset) :
    Option (List (String × FittedModel)) :=
  match csv with
  | none => none
  | some df =>
    if neededCols.all fun c => df.cols.contains c then
      some (targetCols.filterMap fun t =>
        if df.cols.contains t then some (t, fitModel df t) else none)
    else none

/-- Mapping first components over a guarded filterMap yields a filter. -/
theorem filterMap_guard_map_fst {α β : Type} (p : α → Bool) (g : α → β)
    (l : List α) :
    (l.filterMap fun a => if p a then some (a, g a) else none).map Prod.fst =
      l.filter p := by
  induction l with
  | nil => rfl
  | cons a l ih =>
    by_cases h : p a <;> simp [List.filterMap_cons, h, ih]

/-- C6: if any required feature column is absent the trainer produces no
model set at all; if all required feature columns are present it produces a
model set whose targets are exactly the target columns present in the
dataset — a missing target column merely drops that one model. -/
theorem trainer_feature_columns_fatal_target_columns_skipped :
    (∀ df : Dataset, (∃ c ∈ neededCols, c ∉ df.cols) →
      trainModelFromCsv (some df) = none) ∧
    (∀ df : Dataset, (∀ c ∈ neededCols, c ∈ df.cols) →
      ∃ ms, trainModelFromCsv (some df) = some ms ∧
        ms.map Prod.fst = targetCols.filter (fun t => df.cols.contains t) ∧
        ∀ t ∈ targetCols, t ∈ df.cols → (t, fitModel df t) ∈ ms) := by
  constructor
  · rintro df ⟨c, hc, hcabs⟩
    have hall : ¬ (neededCols.all fun c => df.cols.contains c) = true := by
      simp only [List.all_eq_true, List.contains, List.elem_eq_mem,
        decide_eq_true_eq]
      intro h
      exact hcabs (h c hc)
    simp only [trainModelFromCsv]
    rw [if_neg hall]
  · intro df hneed
    have hall : (neededCols.all fun c => df.cols.contains c) = true := by
      simp only [List.all_eq_true, List.contains, List.elem_eq_mem,
        decide_eq_true_eq]
      exact hneed
    refine ⟨targetCols.filterMap fun t =>
        if df.cols.contains t then some (t, fitModel df t) else none,
      ?_, ?_, ?_⟩
    · simp only [trainModelFromCsv]
      rw [if_pos hall]
    · exact filterMap_guard_map_fst _ _ _
    · intro t ht htin
      simp only [List.mem_filterMap]
      refine ⟨t, ht, ?_⟩
      have hcont : df.cols.contains t = true := by
        simp [List.contains, List.elem_eq_mem, htin]
      rw [if_pos hcont]

/-- A dataset whose columns lack the required feature column PTS_L5. -/
def datasetMissingPtsL5 : Dataset :=
  { cols := ["REB_L5", "AST_L5", "MIN_L5", "STL_L5", "BLK_L5", "PTS", "REB"]
    rows := [] }

/-- Witness for C6: on a concrete dataset missing PTS_L5 the trainer
produces nothing. -/
theorem trainer_feature_columns_fatal_witness :
    ("PTS_L5" ∈ neededCols ∧ "PTS_L5" ∉ datasetMissingPtsL5.cols) ∧
    trainModelFromCsv (some datasetMissingPtsL5) = none :=
  ⟨⟨by decide, by decide⟩,
    trainer_feature_columns_fatal_target_columns_skipped.1 datasetMissingPtsL5
      ⟨"PTS_L5", by decide, by decide⟩⟩

/-- One row of the league-wide team aggregate
(`leaguedashteamstats`): team id and points allowed (the PTS column of the
defensive table). -/
structure TeamRow where
  teamId : ℕ
  pts : ℚ
deriving DecidableEq, Repr

/-- Comparison used to sort the league table: ascending points allowed
(`df.sort_values('PTS')`, lower is better defense). -/
def teamLE (a b : TeamRow) : Prop := a.pts ≤ b.pts

instance : DecidableRel teamLE := fun a b =>
  inferInstanceAs (Decidable (a.pts ≤ b.pts))

instance : IsTotal TeamRow teamLE := ⟨fun a b => le_total a.pts b.pts⟩

instance : IsTrans TeamRow teamLE := ⟨fun _ _ _ hab hbc => le_trans hab hbc⟩

/-- The sort step of `get_team_defense_rankings` (app.py line 129).
pandas' default sort kind gives no tie-order guarantee; insertion sort is
one admissible refinement, and every property proved below about tied rows
only uses sortedness and permutation, which any correct sort provides. -/
def sortByPts (rows : List TeamRow) : List TeamRow :=
  rows.insertionSort teamLE

/-- Rank assignment by enumeration starting at `k`
(`enumerate(df.iterrows(), 1)` starts at 1). -/
def rankFrom (k : ℕ) : List TeamRow → List (ℕ × ℕ)
  | [] => []
  | r :: rs => (r.teamId, k) :: rankFrom (k + 1) rs

/-- Embedding of `get_team_defense_rankings` (app.py lines 129-136): sort
the league table by points allowed ascending, then assign rank 1, 2, … in
enumeration order, keyed by team id.  The Python dict is modelled as an
association list, faithful whenever team ids are pairwise distinct (the
league aggregate has one row per team). -/
def rankMap (rows : List TeamRow) : List (ℕ × ℕ) :=
  rankFrom 1 (sortByPts rows)

/-- The ranks assigned by enumeration from `k` over a list of length `n`
are exactly `k, k+1, …, k+n-1`. -/
theorem rankFrom_map_snd (k : ℕ) (l : List TeamRow) :
    (rankFrom k l).map Prod.snd = List.range' k l.length := by
  induction l generalizing k with
  | nil => rfl
  | cons r rs ih =>
    simp [rankFrom, List.range'_succ, ih]

/-- Enumeration preserves the team ids in order. -/
theorem rankFrom_map_fst (k : ℕ) (l : List TeamRow) :
    (rankFrom k l).map Prod.fst = l.map (·.teamId) := by
  induction l generalizing k with
  | nil => rfl
  | cons r rs ih =>
    simp [rankFrom, ih]

/-- Every rank assigned by enumeration from `k` is at least `k`. -/
theorem rankFrom_le {k : ℕ} {l : List TeamRow} {t r : ℕ}
    (h : (t, r) ∈ rankFrom k l) : k ≤ r := by
  induction l generalizing k with
  | nil => simp [rankFrom] at h
  | cons x xs ih =>
    simp only [rankFrom, List.mem_cons, Prod.mk.injEq] at h
    rcases h with ⟨-, hr⟩ | h
    · omega
    · have := ih h
      omega

/-- The row at position `i` of the enumerated list receives rank `k + i`. -/
theorem rankFrom_get_mem (k : ℕ) (l : List TeamRow) (i : ℕ)
    (h : i < l.length) :
    ((l.get ⟨i, h⟩).teamId, k + i) ∈ rankFrom k l := by
  induction l generalizing k i with
  | nil => simp at h
  | cons x xs ih =>
    cases i with
    | zero => simp [rankFrom]
    | succ j =>
      have hj : j < xs.length := by simpa using h
      have := ih (k + 1) j hj
      simp only [rankFrom, List.mem_cons]
      right
      have harith : k + (j + 1) = (k + 1) + j := by omega
      rw [harith]
      simpa using this

/-- Pairwise-distinct team ids make the id projection injective on the
list. -/
theorem teamId_inj {l : List TeamRow}
    (h : (l.map (·.teamId)).Pairwise (· ≠ ·)) :
    ∀ a ∈ l, ∀ b ∈ l, a.teamId = b.teamId → a = b :=
  List.inj_on_of_nodup_map h

/-- C4: over team rows with pairwise-distinct points-allowed values (and one
row per team), the rank map assigns the ranks 1..N exactly — a permutation
with no gaps or duplicates — every team receives a rank, and a team ranked 1
has points allowed ≤ every other team's.  The claim's remaining clause about
tied points-allowed values is vacuous under its own pairwise-distinctness
hypothesis: no two rows tie. -/
theorem defensiveRank_permutation_and_best_defense (rows : List TeamRow)
    (hpts : (rows.map (·.pts)).Pairwise (· ≠ ·))
    (hids : (rows.map (·.teamId)).Pairwise (· ≠ ·)) :
    (rankMap rows).map Prod.snd = List.range' 1 rows.length ∧
    ((rankMap rows).map Prod.fst).Perm (rows.map (·.teamId)) ∧
    (∀ a ∈ rows, ∀ b ∈ rows, a ≠ b → a.pts ≠ b.pts) ∧
    ∀ r0 ∈ rows, (r0.teamId, 1) ∈ rankMap rows → ∀ r ∈ rows, r0.pts ≤ r.pts := by
  have hperm : (sortByPts rows).Perm rows := List.perm_insertionSort teamLE rows
  have hsorted : List.Sorted teamLE (sortByPts rows) :=
    List.sorted_insertionSort teamLE rows
  have hlen : (sortByPts rows).length = rows.length := hperm.length_eq
  refine ⟨?_, ?_, ?_, ?_⟩
  · rw [rankMap, rankFrom_map_snd, hlen]
  · rw [rankMap, rankFrom_map_fst]
    exact hperm.map _
  · intro a ha b hb hne hpeq
    exact hne (List.inj_on_of_nodup_map hpts ha hb hpeq)
  · intro r0 hr0 hmem r hr
    cases hs : sortByPts rows with
    | nil =>
      rw [rankMap, hs] at hmem
      simp [rankFrom] at hmem
    | cons x xs =>
      rw [rankMap, hs] at hmem
      simp only [rankFrom, List.mem_cons, Prod.mk.injEq] at hmem
      rcases hmem with ⟨hid, -⟩ | hmem
      · have hx : x ∈ rows :=
          hperm.mem_iff.mp (by rw [hs]; exact List.mem_cons_self x xs)
        have hr0x : r0 = x := teamId_inj hids r0 hr0 x hx hid
        have hrs : r ∈ sortByPts rows := hperm.mem_iff.mpr hr
        rw [hs] at hrs
        rcases List.mem_cons.mp hrs with hrx | hrxs
        · rw [hr0x, hrx]
        · rw [hr0x]
          exact List.rel_of_sorted_cons (hs ▸ hsorted) r hrxs
      · have := rankFrom_le hmem
        omega

/-- A three-team sample league with pairwise-distinct points allowed. -/
def sampleTeams : List TeamRow :=
  [⟨101, 110⟩, ⟨102, 95⟩, ⟨103, 120⟩]

/-- Witness for C4 at a concrete three-team league. -/
theorem defensiveRank_permutation_witness :
    ((sampleTeams.map (·.pts)).Pairwise (· ≠ ·) ∧
     (sampleTeams.map (·.teamId)).Pairwise (· ≠ ·)) ∧
    (rankMap sampleTeams).map Prod.snd = List.range' 1 sampleTeams.length :=
  ⟨⟨by decide, by decide⟩,
    (defensiveRank_permutation_and_best_defense sampleTeams (by decide)
      (by decide)).1⟩

/-- C10: for every league aggregate with one row per team — ties in points
allowed permitted — the assigned ranks are exactly the list 1..N (so all
ranks are distinct, with no shared dense rank), every team id appears
exactly once in the map, the team at sorted position `i` receives rank
`i + 1`, and the sorted positions holding any given points-allowed value
form a consecutive block, so tied teams receive distinct consecutive
ranks. -/
theorem defensiveRank_ranks_distinct_consecutive (rows : List TeamRow)
    (hids : (rows.map (·.teamId)).Pairwise (· ≠ ·)) :
    (rankMap rows).map Prod.snd = List.range' 1 rows.length ∧
    ((rankMap rows).map Prod.snd).Nodup ∧
    ((rankMap rows).map Prod.fst).Perm (rows.map (·.teamId)) ∧
    ((rankMap rows).map Prod.fst).Nodup ∧
    (∀ (i : ℕ) (h : i < (sortByPts rows).length),
      (((sortByPts rows).get ⟨i, h⟩).teamId, i + 1) ∈ rankMap rows) ∧
    ∀ (a b c : Fin (sortByPts rows).length), a ≤ b → b ≤ c →
      ((sortByPts rows).get a).pts = ((sortByPts rows).get c).pts →
      ((sortByPts rows).get b).pts = ((sortByPts rows).get a).pts := by
  have hperm : (sortByPts rows).Perm rows := List.perm_insertionSort teamLE rows
  have hsorted : List.Sorted teamLE (sortByPts rows) :=
    List.sorted_insertionSort teamLE rows
  have hlen : (sortByPts rows).length = rows.length := hperm.length_eq
  have hsnd : (rankMap rows).map Prod.snd = List.range' 1 rows.length := by
    rw [rankMap, rankFrom_map_snd, hlen]
  have hfstperm : ((rankMap rows).map Prod.fst).Perm (rows.map (·.teamId)) := by
    rw [rankMap, rankFrom_map_fst]
    exact hperm.map _
  refine ⟨hsnd, ?_, hfstperm, ?_, ?_, ?_⟩
  · rw [hsnd]
    exact List.nodup_range' 1 rows.length
  · exact hfstperm.nodup_iff.mpr hids
  · intro i h
    have := rankFrom_get_mem 1 (sortByPts rows) i h
    rw [Nat.add_comm 1 i] at this
    exact this
  · intro a b c hab hbc hac
    have hab' : ((sortByPts rows).get a).pts ≤ ((sortByPts rows).get b).pts := by
      rcases lt_or_eq_of_le hab with h | h
      · exact hsorted.rel_get_of_lt h
      · rw [h]
    have hbc' : ((sortByPts rows).get b).pts ≤ ((sortByPts rows).get c).pts := by
      rcases lt_or_eq_of_le hbc with h | h
      · exact hsorted.rel_get_of_lt h
      · rw [h]
    rw [← hac] at hbc'
    exact le_antisymm hbc' hab'

/-- A three-team sample league containing a points-allowed tie. -/
def sampleTeamsTied : List TeamRow :=
  [⟨201, 100⟩, ⟨202, 100⟩, ⟨203, 98⟩]

/-- Witness for C10 at a concrete league with a tie. -/
theorem defensiveRank_ranks_distinct_witness :
    (sampleTeamsTied.map (·.teamId)).Pairwise (· ≠ ·) ∧
    (rankMap sampleTeamsTied).map Prod.snd =
      List.range' 1 sampleTeamsTied.length :=
  ⟨by decide, (defensiveRank_ranks_distinct_consecutive sampleTeamsTied
    (by decide)).1⟩

/-- A scoreboard row: home and visitor team ids
(`board.game_header` in app.py). -/
structure GameHeader where
  homeTeamId : ℕ
  visitorTeamId : ℕ
deriving DecidableEq, Repr

/-- Matchup classification badge: HARD (`matchup-hard`), EASY
(`matchup-easy`) or NEUTRAL (`matchup-mid`). -/
inductive Matchup
  | hard
  | easy
  | neutral
deriving DecidableEq, Repr

/-- Outcome of the opponent-resolution block (app.py lines 227-259): either
the initial explicit Unknown display state, or a classified matchup for a
resolved opponent with its rank. -/
inductive MatchupResult
  | unknown
  | classified (oppId : ℕ) (rank : ℕ) (m : Matchup)
deriving DecidableEq, Repr

/-- The classification policy of app.py lines 251-259: rank ≤ 10 is HARD,
rank ≥ 20 is EASY, anything else is NEUTRAL.  The thresholds 10 and 20 are
literal constants in the source; the function takes no other argument. -/
def classifyRank (rank : ℕ) : Matchup :=
  if rank ≤ 10 then .hard else if 20 ≤ rank then .easy else .neutral

/-- Opponent resolution (app.py lines 238-244): the first scoreboard row
whose home or visitor id matches the player's team, taking the other side
as the opponent; `none` when no scheduled game matches. -/
def resolveOpponent (games : List GameHeader) (tid : ℕ) : Option ℕ :=
  match games.find? (fun g => g.homeTeamId == tid || g.visitorTeamId == tid) with
  | none => none
  | some g => some (if g.homeTeamId = tid then g.visitorTeamId else g.homeTeamId)

/-- Rank lookup (app.py line 247): `defense_ranks.get(opp_id, 15)` — a
dictionary lookup that silently defaults to the mid-table rank 15 when the
opponent is absent from the ranking table. -/
def lookupRank (ranks : List (ℕ × ℕ)) (oppId : ℕ) : ℕ :=
  match ranks.find? (fun p => p.1 == oppId) with
  | none => 15
  | some p => p.2

/-- The whole opponent-resolution block: the scoreboard fetch may fail
(`board = none`, the `except: pass` path), the player's team id may be
unknown (manual search), the schedule may hold no game for the team, and
otherwise the resolved opponent is classified from its looked-up rank. -/
def matchupFor (ranks : List (ℕ × ℕ)) (board : Option (List GameHeader))
    (ptid : Option ℕ) : MatchupResult :=
  match board with
  | none => .unknown
  | some games =>
    match ptid with
    | none => .unknown
    | some tid =>
      match resolveOpponent games tid with
      | none => .unknown
      | some opp =>
        .classified opp (lookupRank ranks opp) (classifyRank (lookupRank ranks opp))

/-- C3 counterexample: with an empty ranking table and a scheduled game
putting team 1 against team 2, the opponent (team 2) has no known defensive
rank, yet the result is not the UNKNOWN state — the code silently defaults
the rank to 15 and classifies the matchup NEUTRAL. -/
theorem matchup_unknown_claim_counterexample :
    matchupFor [] (some [⟨1, 2⟩]) (some 1) =
      MatchupResult.classified 2 15 .neutral ∧
    matchupFor [] (some [⟨1, 2⟩]) (some 1) ≠ MatchupResult.unknown := by
  constructor
  · rfl
  · decide

/-- C3 amended: when no scheduled game is found for the date (or the
scoreboard fetch fails, or the player's team is unknown) the matchup result
is the explicit UNKNOWN state; but when a game is found and the opponent is
absent from the ranking table, the code defaults the opponent's rank to the
mid-table value 15 and silently classifies the matchup NEUTRAL. -/
theorem matchup_unknown_only_without_schedule :
    (∀ (ranks : List (ℕ × ℕ)) (games : List GameHeader),
      matchupFor ranks (some games) none = .unknown) ∧
    (∀ (ranks : List (ℕ × ℕ)) (ptid : Option ℕ),
      matchupFor ranks none ptid = .unknown) ∧
    (∀ (ranks : List (ℕ × ℕ)) (games : List GameHeader) (tid : ℕ),
      resolveOpponent games tid = none →
      matchupFor ranks (some games) (some tid) = .unknown) ∧
    (∀ (ranks : List (ℕ × ℕ)) (games : List GameHeader) (tid opp : ℕ),
      resolveOpponent games tid = some opp →
      (∀ p ∈ ranks, p.1 ≠ opp) →
      matchupFor ranks (some games) (some tid) =
        .classified opp 15 .neutral) := by
  refine ⟨fun ranks games => rfl, fun ranks ptid => rfl, ?_, ?_⟩
  · intro ranks games tid h
    simp [matchupFor, h]
  · intro ranks games tid opp h hnone
    have hfind : ranks.find? (fun p => p.1 == opp) = none := by
      rw [List.find?_eq_none]
      intro p hp
      simpa using hnone p hp
    simp [matchupFor, h, lookupRank, hfind, classifyRank]

/-- Witness for the amended C3 at a concrete schedule and ranking table. -/
theorem matchup_unknown_only_without_schedule_witness :
    (resolveOpponent [⟨1, 2⟩] 1 = some 2 ∧
     ∀ p ∈ [((3 : ℕ), (4 : ℕ))], p.1 ≠ 2) ∧
    matchupFor [(3, 4)] (some [⟨1, 2⟩]) (some 1) =
      MatchupResult.classified 2 15 .neutral :=
  ⟨⟨by decide, by decide⟩,
    matchup_unknown_only_without_schedule.2.2.2 [(3, 4)] [⟨1, 2⟩] 1 2
      (by decide) (by decide)⟩

/-- C7: the matchup classification is HARD exactly when the opponent's rank
is ≤ 10, EASY exactly when it is ≥ 20, and NEUTRAL exactly when it lies in
11..19; in particular rank 5 is HARD, rank 25 is EASY and rank 15 is
NEUTRAL.  The thresholds are the literal constants 10 and 20 of the source:
`classifyRank` has no further parameter. -/
theorem matchupClassification_thresholds :
    (∀ rank : ℕ,
      (classifyRank rank = .hard ↔ rank ≤ 10) ∧
      (classifyRank rank = .easy ↔ 20 ≤ rank) ∧
      (classifyRank rank = .neutral ↔ 11 ≤ rank ∧ rank ≤ 19)) ∧
    classifyRank 5 = .hard ∧
    classifyRank 25 = .easy ∧
    classifyRank 15 = .neutral := by
  refine ⟨fun rank => ?_, by decide, by decide, by decide⟩
  by_cases h1 : rank ≤ 10
  · simp [classifyRank, h1]
    omega
  · by_cases h2 : 20 ≤ rank
    · simp [classifyRank, h1, h2]
      omega
    · simp [classifyRank, h1, h2]
      omega

/-- Numeric value of a decimal digit character. -/
def digitVal (c : Char) : Option ℕ :=
  if '0' ≤ c ∧ c ≤ '9' then some (c.toNat - '0'.toNat) else none

/-- Parse a nonempty all-digit character list as a natural number. -/
def parseNatList (cs : List Char) : Option ℕ :=
  if cs = [] then none
  else
    cs.foldl
      (fun acc c =>
        match acc, digitVal c with
        | some a, some d => some (a * 10 + d)
        | _, _ => none)
      (some 0)

/-- Split a character list at every occurrence of the separator. -/
def splitFields (sep : Char) : List Char → List (List Char)
  | [] => [[]]
  | c :: cs =>
    match splitFields sep cs with
    | [] => [[]]
    | f :: fs => if c = sep then [] :: f :: fs else (c :: f) :: fs

/-- Month abbreviation of the provider's `%b` date field. -/
def monthVal (cs : List Char) : Option ℕ :=
  if cs = "Jan".toList then some 1
  else if cs = "Feb".toList then some 2
  else if cs = "Mar".toList then some 3
  else if cs = "Apr".toList then some 4
  else if cs = "May".toList then some 5
  else if cs = "Jun".toList then some 6
  else if cs = "Jul".toList then some 7
  else if cs = "Aug".toList then some 8
  else if cs = "Sep".toList then some 9
  else if cs = "Oct".toList then some 10
  else if cs = "Nov".toList then some 11
  else if cs = "Dec".toList then some 12
  else none

/-- Embedding of `pd.to_datetime(df['GAME_DATE'], format='%b %d, %Y')` for
one value: a provider date string such as "Nov 05, 2025" becomes the
comparable key `year * 10000 + month * 100 + day`; any malformed string
fails (pandas raises, landing in the `except` branch). -/
def parseGameDate (s : String) : Option ℕ :=
  match splitFields ' ' s.toList with
  | [m, dc, y] =>
    match splitFields ',' dc with
    | [d, []] =>
      match monthVal m, parseNatList d, parseNatList y with
      | some mo, some dn, some yn => some (yn * 10000 + mo * 100 + dn)
      | _, _, _ => none
    | _ => none
  | _ => none

/-- One raw provider row of the player game log: the formatted date string
and the six tracked statistic columns. -/
structure RawRow where
  gameDate : String
  minutes : ℚ
  pts : ℚ
  reb : ℚ
  ast : ℚ
  stl : ℚ
  blk : ℚ
deriving DecidableEq, Repr

/-- A raw provider table: column names in provider casing plus rows. -/
structure RawTable where
  cols : List String
  rows : List RawRow
deriving DecidableEq, Repr

/-- A normalized game-log table: canonical upper-case column names and
records with parsed dates. -/
structure NormTable where
  cols : List String
  rows : List GameRecord
deriving DecidableEq, Repr

/-- Carry a raw row over to a normalized record with its parsed date. -/
def toGameRecord (d : ℕ) (r : RawRow) : GameRecord :=
  ⟨d, r.minutes, r.pts, r.reb, r.ast, r.stl, r.blk⟩

/-- Chronological comparison of normalized records
(`df.sort_values(by='GAME_DATE')`). -/
def dateLE (a b : GameRecord) : Prop := a.gameDate ≤ b.gameDate

instance : DecidableRel dateLE := fun a b =>
  inferInstanceAs (Decidable (a.gameDate ≤ b.gameDate))

instance : IsTotal GameRecord dateLE :=
  ⟨fun a b => Nat.le_total a.gameDate b.gameDate⟩

instance : IsTrans GameRecord dateLE := ⟨fun _ _ _ => Nat.le_trans⟩

/-- The date-column parse of app.py line 114: every row's date string is
parsed, all-or-nothing, carrying the remaining statistics over. -/
def parseRows : List RawRow → Option (List GameRecord)
  | [] => some []
  | r :: rest =>
    match parseGameDate r.gameDate, parseRows rest with
    | some d, some gs => some (toGameRecord d r :: gs)
    | _, _ => none

/-- Embedding of `get_player_recent_stats` (app.py lines 108-118).  The
argument is the fetch outcome: `Except.error` is a transport failure from
the provider (the `except` branch — distinct in the control flow from the
empty-result branch, but both return the empty-DataFrame sentinel, here
`none`).  A non-empty result has its column names upper-cased, its date
column parsed (a parse failure raises, again the `except` branch), and its
rows sorted ascending by date. -/
def getPlayerRecentStats (fetch : Except Unit RawTable) : Option NormTable :=
  match fetch with
  | .error _ => none
  | .ok t =>
    if t.rows.isEmpty then none
    else
      match parseRows t.rows with
      | none => none
      | some rs =>
        some { cols := t.cols.map (fun c => c.toUpper)
               rows := rs.insertionSort dateLE }

/-- The date-column parse succeeds when every row's date parses, and every
output record carries the parsed date and statistics of some input row. -/
theorem parseRows_of_isSome :
    ∀ l : List RawRow, (∀ r ∈ l, (parseGameDate r.gameDate).isSome) →
      ∃ rs, parseRows l = some rs ∧ rs.length = l.length ∧
        ∀ g ∈ rs, ∃ r ∈ l, parseGameDate r.gameDate = some g.gameDate ∧
          g = toGameRecord g.gameDate r := by
  intro l
  induction l with
  | nil => exact fun _ => ⟨[], rfl, rfl, by simp⟩
  | cons r rest ih =>
    intro h
    obtain ⟨d, hd⟩ :=
      Option.isSome_iff_exists.mp (h r (List.mem_cons_self r rest))
    obtain ⟨rs, hrs, hlen, hmem⟩ :=
      ih fun z hz => h z (List.mem_cons_of_mem r hz)
    refine ⟨toGameRecord d r :: rs, ?_, by simp [hlen], ?_⟩
    · simp [parseRows, hd, hrs]
    · intro g hg
      rcases List.mem_cons.mp hg with rfl | hg
      · exact ⟨r, List.mem_cons_self r rest, hd, rfl⟩
      · obtain ⟨w, hw, hpw, hgw⟩ := hmem g hg
        exact ⟨w, List.mem_cons_of_mem r hw, hpw, hgw⟩

/-- C8: the normalizer maps transport failure to the empty sentinel, and —
given well-formed provider date strings — fails exactly when the fetched
row collection is empty; on a non-empty collection it succeeds with column
names normalized to upper case, the row count preserved, every output
record carrying the parsed date of an input row together with that row's
statistics, and rows sorted ascending by date.  Transport failure and the
empty result are distinct branches of the source, both mapped to the same
empty sentinel downstream. -/
theorem normalizer_empty_iff_and_sorted :
    getPlayerRecentStats (Except.error ()) = none ∧
    ∀ t : RawTable, (∀ r ∈ t.rows, (parseGameDate r.gameDate).isSome) →
      ((getPlayerRecentStats (Except.ok t) = none ↔ t.rows = []) ∧
       (t.rows ≠ [] → ∃ nt : NormTable,
         getPlayerRecentStats (Except.ok t) = some nt ∧
         nt.cols = t.cols.map (fun c => c.toUpper) ∧
         List.Sorted dateLE nt.rows ∧
         nt.rows.length = t.rows.length ∧
         ∀ g ∈ nt.rows, ∃ r ∈ t.rows,
           parseGameDate r.gameDate = some g.gameDate ∧
           g = toGameRecord g.gameDate r)) := by
  refine ⟨rfl, ?_⟩
  intro t hdates
  by_cases hempty : t.rows = []
  · refine ⟨⟨fun _ => hempty, fun _ => ?_⟩, fun hne => absurd hempty hne⟩
    simp [getPlayerRecentStats, hempty]
  · obtain ⟨rs, hrs, hlen, hmem⟩ := parseRows_of_isSome t.rows hdates
    have hresult : getPlayerRecentStats (Except.ok t) =
        some ⟨t.cols.map (fun c => c.toUpper), rs.insertionSort dateLE⟩ := by
      simp [getPlayerRecentStats, hempty, hrs]
    constructor
    · rw [hresult]
      exact ⟨fun h => absurd h (by simp), fun h => absurd h hempty⟩
    · intro _
      refine ⟨_, hresult, rfl, List.sorted_insertionSort dateLE rs,
        (List.perm_insertionSort dateLE rs).length_eq.trans hlen, ?_⟩
      intro g hg
      exact hmem g ((List.mem_insertionSort dateLE).mp hg)

/-- A two-row raw provider table with provider-cased column names. -/
def sampleRawTable : RawTable :=
  { cols := ["Game_Date", "Min", "Pts", "Reb", "Ast", "Stl", "Blk"]
    rows := [⟨"Nov 05, 2025", 30, 10, 5, 3, 1, 0⟩,
             ⟨"Oct 30, 2025", 31, 12, 6, 4, 1, 1⟩] }

/-- Witness for C8 at a concrete two-row provider table. -/
theorem normalizer_empty_iff_and_sorted_witness :
    (∀ r ∈ sampleRawTable.rows, (parseGameDate r.gameDate).isSome) ∧
    (getPlayerRecentStats (Except.ok sampleRawTable) = none ↔
      sampleRawTable.rows = []) :=
  ⟨by decide, (normalizer_empty_iff_and_sorted.2 sampleRawTable (by decide)).1⟩

/-- C9: on sufficient history the prediction service succeeds and returns
one entry per trained model — the keys are exactly the model set's keys, so
a partial model set yields the corresponding partial result without error —
and every value is the model's output rounded to one decimal place. -/
theorem predictionService_partial_models_rounded
    (models : List (String × (FeatureRow → ℚ))) (log : List GameRecord)
    (h : 5 ≤ log.length) :
    ∃ preds, predict models log = some preds ∧
      preds.map Prod.fst = models.map Prod.fst ∧
      (∀ sm ∈ models, (sm.1, pyRound1 (sm.2 (featureRow log))) ∈ preds) ∧
      ∀ p ∈ preds, ∃ sm ∈ models,
        p = (sm.1, pyRound1 (sm.2 (featureRow log))) := by
  refine ⟨models.map (fun sm => (sm.1, pyRound1 (sm.2 (featureRow log)))),
    ?_, ?_, ?_, ?_⟩
  · simp [predict, Nat.not_lt.mpr h]
  · simp
  · intro sm hsm
    exact List.mem_map_of_mem _ hsm
  · intro p hp
    obtain ⟨sm, hsm, rfl⟩ := List.mem_map.mp hp
    exact ⟨sm, hsm, rfl⟩

/-- A one-model set predicting points from the points rolling feature. -/
def ptsModel : List (String × (FeatureRow → ℚ)) :=
  [("PTS", fun fr => fr.ptsL5)]

/-- Witness for C9: a single-model set over the six-game sample log yields
a prediction result keyed exactly by that model. -/
theorem predictionService_partial_models_rounded_witness :
    5 ≤ sampleLog.length ∧
    (predict ptsModel sampleLog).map (fun preds => preds.map Prod.fst) =
      some ["PTS"] := by
  refine ⟨by decide, ?_⟩
  obtain ⟨preds, hp, hk, -, -⟩ :=
    predictionService_partial_models_rounded ptsModel sampleLog (by decide)
  rw [hp, Option.map_some', hk]
  rfl
